import Mathlib

/-!
Verification of the forum-style posting application (MVC with EJS).

The repository's own source provides the validation layer (`CreatePostDto`
with class-validator annotations, wired through a global `ValidationPipe` in
`main.ts`) and an end-to-end test suite.  The Post Store and Post Presenter
(Prisma queries, controller, EJS views) are not part of the provided source,
so they are modelled from the specification, as marked on each definition.
-/

namespace MvcPosts

/-- Modelled from the spec: the `Post` entity of §3 (the Prisma schema is not
in the provided source).  `id` is the opaque identifier, `replyToId` the
optional reference to the parent post, `createdAt` the creation timestamp
used as the sole ordering key. -/
structure Post where
  id : String
  posterName : String
  content : String
  replyToId : Option String
  createdAt : Nat
deriving DecidableEq, Repr

/-- Translated from `CreatePostDto` in the source: the shape of a
post-creation request (`posterName`, `content`, optional `replyToId`). -/
structure CreatePostDto where
  posterName : String
  content : String
  replyToId : Option String
deriving DecidableEq, Repr

/-- Hexadecimal digit test, as used by the UUID pattern of validator.js. -/
def isHexDigit (c : Char) : Bool :=
  (Char.ofNat 48 ≤ c && c ≤ Char.ofNat 57) ||
  (Char.ofNat 97 ≤ c && c ≤ Char.ofNat 102) ||
  (Char.ofNat 65 ≤ c && c ≤ Char.ofNat 70)

/-- Character admitted at position `i` of a UUID string: a hyphen at the four
separator positions, a hexadecimal digit everywhere else. -/
def uuidCharOk (i : Nat) (c : Char) : Bool :=
  if i = 8 || i = 13 || i = 18 || i = 23 then c = Char.ofNat 45 else isHexDigit c

/-- Translated from the `@IsUUID()` annotation on `CreatePostDto.replyToId`:
class-validator delegates to validator.js, whose UUID pattern (no version
given) is `8-4-4-4-12` hexadecimal groups separated by hyphens. -/
def isUUID (s : String) : Bool :=
  s.length = 36 && s.toList.enum.all fun ic => uuidCharOk ic.1 ic.2

/-- Translated from the `@IsNotEmpty()` annotation: class-validator rejects
exactly `''`, `null` and `undefined`; for a string value this is just the
test against the empty string (whitespace passes). -/
def isNotEmptyCheck (x : String) : Bool := !(x = "")

/-- Validation of `CreatePostDto.posterName`: `@IsNotEmpty()`, `@IsString()`,
`@MaxLength(100)`. -/
def posterNameValid (x : String) : Bool :=
  isNotEmptyCheck x && x.length ≤ 100

/-- Validation of `CreatePostDto.content`: `@IsNotEmpty()`, `@IsString()`,
`@MaxLength(25000)`. -/
def contentValid (x : String) : Bool :=
  isNotEmptyCheck x && x.length ≤ 25000

/-- Validation of `CreatePostDto.replyToId`: `@IsOptional()`, `@IsUUID()`. -/
def replyToIdValid : Option String → Bool
  | none => true
  | some r => isUUID r

/-- The whole-DTO validation performed by the global `ValidationPipe`
(`main.ts`) against the `CreatePostDto` annotations. -/
def validCreatePostDto (d : CreatePostDto) : Bool :=
  posterNameValid d.posterName && contentValid d.content &&
    replyToIdValid d.replyToId

/-- A store state: the sequence of persisted posts, in insertion order. -/
def Store := List Post

/-- Stable insertion step: `p` is placed before the first element `q` for
which `prec q p` fails, so elements already in the list that must precede
`p` stay in front of it. -/
def insertBy (prec : Post → Post → Bool) (p : Post) : List Post → List Post
  | [] => [p]
  | q :: qs => if prec q p then q :: insertBy prec p qs else p :: q :: qs

/-- Stable insertion sort with respect to the strict precedence `prec`;
elements the precedence does not separate keep their original order. -/
def sortByPrec (prec : Post → Post → Bool) : List Post → List Post
  | [] => []
  | p :: ps => insertBy prec p (sortByPrec prec ps)

/-- Strict precedence for newest-first ordering: `q` must stay before `p`
when `q.createdAt` is strictly greater. -/
def descPrec (q p : Post) : Bool := p.createdAt < q.createdAt

/-- Strict precedence for oldest-first ordering: `q` must stay before `p`
when `q.createdAt` is strictly smaller. -/
def ascPrec (q p : Post) : Bool := q.createdAt < p.createdAt

/-- Modelled from the spec: `listTopLevelPosts()` of §4.1 (the Prisma query
is not in the provided source) — the posts whose `replyToId` is absent,
ordered by `createdAt` descending. -/
def listTopLevelPosts (s : List Post) : List Post :=
  sortByPrec descPrec (s.filter fun p => p.replyToId = none)

/-- Modelled from the spec: `getPost(id)` of §4.1 — the post with the given
identifier, or nothing. -/
def getPost (s : List Post) (i : String) : Option Post :=
  s.find? fun p => p.id = i

/-- Modelled from the spec: `listRepliesTo(id)` of §4.1 — all posts whose
`replyToId` equals `id`, ordered by `createdAt` ascending. -/
def listRepliesTo (s : List Post) (i : String) : List Post :=
  sortByPrec ascPrec (s.filter fun p => p.replyToId = some i)

/-- Modelled from the spec: `renderIndex()` of §4.2 — each top-level post
(newest first) paired with its direct replies (oldest first). -/
def renderIndex (s : List Post) : List (Post × List Post) :=
  (listTopLevelPosts s).map fun p => (p, listRepliesTo s p.id)

/-- Modelled from the spec: `renderShow(id)` of §4.2 — the post with the
given identifier paired with its direct replies, or a `NotFound` failure
(represented by `none`). -/
def renderShow (s : List Post) (i : String) : Option (Post × List Post) :=
  (getPost s i).map fun p => (p, listRepliesTo s i)

/-- The error taxonomy of §7. -/
inductive CreateError where
  | validationError
  | notFound
deriving DecidableEq, Repr

/-- Modelled from the spec: `createPost` of §4.1 — fails with
`ValidationError` if the §3 field constraints are violated, with `NotFound`
if `replyToId` is supplied but references no existing post; otherwise
appends the new record. -/
def storeCreatePost (s : List Post) (posterName content : String)
    (replyToId : Option String) (newId : String) (now : Nat) :
    Except CreateError (List Post) :=
  if posterName.length = 0 ∨ 100 < posterName.length ∨
      content.length = 0 ∨ 25000 < content.length then
    .error .validationError
  else
    match replyToId with
    | none => .ok (s ++ [⟨newId, posterName, content, none, now⟩])
    | some r =>
        if s.any fun p => p.id = r then
          .ok (s ++ [⟨newId, posterName, content, some r, now⟩])
        else
          .error .notFound

/-- The post-creation request path: the `ValidationPipe` (`main.ts`) checks
the `CreatePostDto` annotations first; only a request that passes reaches
the store. -/
def handleCreatePost (s : List Post) (d : CreatePostDto) (newId : String)
    (now : Nat) : Except CreateError (List Post) :=
  if validCreatePostDto d then
    storeCreatePost s d.posterName d.content d.replyToId newId now
  else
    .error .validationError

/-- Modelled from the spec: the reply-count indicator of the index and show
views (the EJS templates are not in the provided source) — omitted whenever
the reply sequence is empty, otherwise showing its length. -/
def repliesIndicator (replies : List Post) : Option Nat :=
  if replies.length = 0 then none else some replies.length

/-! ### Basic lemmas about the stable insertion sort -/

theorem insertBy_perm (prec : Post → Post → Bool) (p : Post) (l : List Post) :
    (insertBy prec p l).Perm (p :: l) := by
  induction l with
  | nil => simp [insertBy]
  | cons q qs ih =>
    by_cases h : prec q p = true
    · rw [insertBy, if_pos h]
      exact (ih.cons q).trans (List.Perm.swap p q qs)
    · rw [insertBy, if_neg h]

theorem sortByPrec_perm (prec : Post → Post → Bool) (l : List Post) :
    (sortByPrec prec l).Perm l := by
  induction l with
  | nil => simp [sortByPrec]
  | cons p ps ih =>
    exact (insertBy_perm prec p (sortByPrec prec ps)).trans (ih.cons p)

theorem pairwise_insertBy (prec : Post → Post → Bool) (R : Post → Post → Prop)
    (h1 : ∀ a b, prec a b = true → R a b)
    (h2 : ∀ a b, prec a b = false → R b a)
    (hT : ∀ a b c, R a b → R b c → R a c)
    (p : Post) (l : List Post) (hl : l.Pairwise R) :
    (insertBy prec p l).Pairwise R := by
  induction l with
  | nil => simp [insertBy]
  | cons q qs ih =>
    rcases List.pairwise_cons.1 hl with ⟨hq, hqs⟩
    by_cases h : prec q p = true
    · rw [insertBy, if_pos h]
      refine List.pairwise_cons.2 ⟨?_, ih hqs⟩
      intro x hx
      rcases List.mem_cons.1 ((insertBy_perm prec p qs).mem_iff.1 hx) with rfl | hx'
      · exact h1 _ _ h
      · exact hq x hx'
    · rw [insertBy, if_neg h]
      have hf : prec q p = false := by simpa using h
      refine List.pairwise_cons.2 ⟨?_, hl⟩
      intro x hx
      rcases List.mem_cons.1 hx with rfl | hx'
      · exact h2 _ _ hf
      · exact hT p q x (h2 _ _ hf) (hq x hx')

theorem pairwise_sortByPrec (prec : Post → Post → Bool) (R : Post → Post → Prop)
    (h1 : ∀ a b, prec a b = true → R a b)
    (h2 : ∀ a b, prec a b = false → R b a)
    (hT : ∀ a b c, R a b → R b c → R a c)
    (l : List Post) :
    (sortByPrec prec l).Pairwise R := by
  induction l with
  | nil => simp [sortByPrec]
  | cons p ps ih => exact pairwise_insertBy prec R h1 h2 hT p _ ih

/-! ### The store queries: permutation and ordering facts -/

theorem listTopLevelPosts_perm (s : List Post) :
    (listTopLevelPosts s).Perm (s.filter fun p => p.replyToId = none) :=
  sortByPrec_perm _ _

theorem listTopLevelPosts_sorted (s : List Post) :
    (listTopLevelPosts s).Pairwise fun a b => b.createdAt ≤ a.createdAt := by
  refine pairwise_sortByPrec _ _ ?_ ?_ ?_ _
  · intro a b h
    exact le_of_lt (by simpa [descPrec] using h)
  · intro a b h
    exact le_of_not_lt (by simpa [descPrec] using h)
  · intro a b c hab hbc
    exact le_trans hbc hab

theorem listRepliesTo_perm (s : List Post) (i : String) :
    (listRepliesTo s i).Perm (s.filter fun p => p.replyToId = some i) :=
  sortByPrec_perm _ _

theorem listRepliesTo_sorted (s : List Post) (i : String) :
    (listRepliesTo s i).Pairwise fun a b => a.createdAt ≤ b.createdAt := by
  refine pairwise_sortByPrec _ _ ?_ ?_ ?_ _
  · intro a b h
    exact le_of_lt (by simpa [ascPrec] using h)
  · intro a b h
    exact le_of_not_lt (by simpa [ascPrec] using h)
  · intro a b c hab hbc
    exact le_trans hab hbc

theorem mem_listRepliesTo (s : List Post) (i : String) (p : Post) :
    p ∈ listRepliesTo s i ↔ p ∈ s ∧ p.replyToId = some i := by
  rw [(listRepliesTo_perm s i).mem_iff, List.mem_filter]
  simp

theorem renderIndex_map_fst (s : List Post) :
    (renderIndex s).map Prod.fst = listTopLevelPosts s := by
  rw [renderIndex, List.map_map]
  exact List.map_id _

theorem mem_renderIndex (s : List Post) {pr : Post × List Post}
    (h : pr ∈ renderIndex s) :
    pr.1 ∈ listTopLevelPosts s ∧ pr.2 = listRepliesTo s pr.1.id := by
  rcases List.mem_map.1 h with ⟨p, hp, hpr⟩
  subst hpr
  exact ⟨hp, rfl⟩

theorem mem_listTopLevelPosts (s : List Post) (p : Post) :
    p ∈ listTopLevelPosts s ↔ p ∈ s ∧ p.replyToId = none := by
  rw [(listTopLevelPosts_perm s).mem_iff, List.mem_filter]
  simp

theorem renderShow_eq_some (s : List Post) (i : String) {pr : Post × List Post}
    (h : renderShow s i = some pr) :
    getPost s i = some pr.1 ∧ pr.2 = listRepliesTo s i := by
  rcases Option.map_eq_some'.1 h with ⟨p, hp, hpr⟩
  subst hpr
  exact ⟨hp, rfl⟩

/-! ### Facts about the validation checks -/

theorem string_length_zero_iff (x : String) : x.length = 0 ↔ x = "" := by
  cases x with
  | mk d => simp [String.length, String.ext_iff]

theorem posterNameValid_iff (x : String) :
    posterNameValid x = true ↔ x ≠ "" ∧ x.length ≤ 100 := by
  simp [posterNameValid, isNotEmptyCheck]

theorem contentValid_iff (x : String) :
    contentValid x = true ↔ x ≠ "" ∧ x.length ≤ 25000 := by
  simp [contentValid, isNotEmptyCheck]

/-! ### Concrete posts and stores used to instantiate the theorems -/

def idA : String := "a"
def idB : String := "b"
def idC : String := "c"
def idD : String := "d"
def idE : String := "e"
def wId : String := "f"
def nmJohn : String := "John"
def nmJane : String := "Jane"
def nmBob : String := "Bob"
def nmX : String := "X"
def ctY : String := "Y"
def ctMain : String := "main post"
def ctR1 : String := "reply 1"
def ctR2 : String := "reply to the reply"
def ctR3 : String := "reply 2"
def ctOther : String := "second post"
def emptyStr : String := ""
def spaceStr : String := " "
def nonexistentId : String := "nonexistent-id"
def freshUuid : String := "123e4567-e89b-12d3-a456-426614174000"

/-- Top-level post, oldest. -/
def postA : Post := ⟨idA, nmJohn, ctMain, none, 0⟩

/-- First direct reply to `postA`. -/
def postB : Post := ⟨idB, nmJane, ctR1, some idA, 1⟩

/-- Reply to `postB`, hence a grandchild of `postA`. -/
def postC : Post := ⟨idC, nmBob, ctR2, some idB, 2⟩

/-- Top-level post, newest. -/
def postD : Post := ⟨idD, nmJohn, ctOther, none, 3⟩

/-- Second direct reply to `postA`, inserted after `postB` with the same
`createdAt`, to exercise the tie-breaking rule. -/
def postE : Post := ⟨idE, nmBob, ctR3, some idA, 1⟩

/-- A store exercising all display cases: two top-level posts, two tied
direct replies, one grandchild, one post without replies. -/
def wStore : List Post := [postA, postB, postC, postD, postE]

/-! ### The claims -/

/-- C1: for every store state, `renderIndex` returns exactly the posts whose
`replyToId` is absent, in `createdAt`-descending order, and pairs each with
exactly its direct replies in `createdAt`-ascending order. -/
theorem C1_renderIndex_contents_and_order (s : List Post) :
    ((renderIndex s).map Prod.fst).Perm (s.filter fun p => p.replyToId = none) ∧
    ((renderIndex s).map Prod.fst).Pairwise
      (fun a b => b.createdAt ≤ a.createdAt) ∧
    ∀ pr ∈ renderIndex s,
      pr.2.Perm (s.filter fun p => p.replyToId = some pr.1.id) ∧
      pr.2.Pairwise fun a b => a.createdAt ≤ b.createdAt := by
  refine ⟨?_, ?_, ?_⟩
  · rw [renderIndex_map_fst]
    exact listTopLevelPosts_perm s
  · rw [renderIndex_map_fst]
    exact listTopLevelPosts_sorted s
  · intro pr hpr
    rw [(mem_renderIndex s hpr).2]
    exact ⟨listRepliesTo_perm s pr.1.id, listRepliesTo_sorted s pr.1.id⟩

/-- Witness for C1: the top-level entries of the sample store are a
permutation of its top-level posts. -/
theorem C1_witness :
    ((renderIndex wStore).map Prod.fst).Perm
      (wStore.filter fun p => p.replyToId = none) :=
  (C1_renderIndex_contents_and_order wStore).1

/-- C2: when B replies to A and C replies to B, the grandchild C is not in
A's reply sequence (neither under `renderIndex` nor under `renderShow A.id`);
it is in B's reply sequence, which `renderShow B.id` returns. -/
theorem C2_grandchild_only_under_parent (s : List Post) (A B C : Post)
    (hids : (s.map Post.id).Nodup)
    (hA : A ∈ s) (hB : B ∈ s) (hC : C ∈ s)
    (hAtop : A.replyToId = none)
    (hBA : B.replyToId = some A.id) (hCB : C.replyToId = some B.id) :
    C ∉ listRepliesTo s A.id ∧ C ∈ listRepliesTo s B.id ∧
    (∀ pr ∈ renderIndex s, C ∉ pr.2) ∧
    (∀ pr, renderShow s A.id = some pr → C ∉ pr.2) ∧
    ∀ pr, renderShow s B.id = some pr → C ∈ pr.2 := by
  have hAB : A.id ≠ B.id := by
    intro h
    have : A = B := List.inj_on_of_nodup_map hids hA hB h
    rw [this, hBA] at hAtop
    cases hAtop
  have hnotA : C ∉ listRepliesTo s A.id := by
    rw [mem_listRepliesTo]
    rintro ⟨-, hmem⟩
    rw [hCB] at hmem
    exact hAB (Option.some.inj hmem).symm
  have hinB : C ∈ listRepliesTo s B.id := (mem_listRepliesTo s B.id C).2 ⟨hC, hCB⟩
  have hidx : ∀ pr ∈ renderIndex s, C ∉ pr.2 := by
    intro pr hpr hmem
    rcases mem_renderIndex s hpr with ⟨htop, hsnd⟩
    rw [hsnd, mem_listRepliesTo] at hmem
    rcases mem_listTopLevelPosts s pr.1 |>.1 htop with ⟨hprs, hprtop⟩
    have : pr.1.id = B.id := Option.some.inj (hCB ▸ hmem.2).symm
    have : pr.1 = B := List.inj_on_of_nodup_map hids hprs hB this
    rw [this, hBA] at hprtop
    cases hprtop
  refine ⟨hnotA, hinB, hidx, ?_, ?_⟩
  · intro pr hpr
    rw [(renderShow_eq_some s A.id hpr).2]
    exact hnotA
  · intro pr hpr
    rw [(renderShow_eq_some s B.id hpr).2]
    exact hinB

/-- Witness for C2: in the sample store the grandchild `postC` is absent
from `postA`'s reply sequence and present in `postB`'s. -/
theorem C2_witness :
    postC ∉ listRepliesTo wStore postA.id ∧
    postC ∈ listRepliesTo wStore postB.id :=
  ⟨(C2_grandchild_only_under_parent wStore postA postB postC (by decide)
      (by decide) (by decide) (by decide) rfl rfl rfl).1,
   (C2_grandchild_only_under_parent wStore postA postB postC (by decide)
      (by decide) (by decide) (by decide) rfl rfl rfl).2.1⟩

/-- C5: a top-level post A with replies B then C inserted in that order and
sharing the same `createdAt` yields a single index entry, A paired with
`[B, C]`: the tie is broken by insertion order. -/
theorem C5_tie_broken_by_insertion (A B C : Post)
    (hA : A.replyToId = none) (hB : B.replyToId = some A.id)
    (hC : C.replyToId = some A.id) (ht : B.createdAt = C.createdAt) :
    renderIndex [A, B, C] = [(A, [B, C])] := by
  simp [renderIndex, listTopLevelPosts, listRepliesTo, sortByPrec, insertBy,
    descPrec, ascPrec, hA, hB, hC, ht]

/-- Witness for C5: `postB` and `postE` both reply to `postA` and share the
same `createdAt`; the index keeps them in insertion order. -/
theorem C5_witness :
    renderIndex [postA, postB, postE] = [(postA, [postB, postE])] :=
  C5_tie_broken_by_insertion postA postB postE rfl rfl rfl rfl

/-- C6: `renderShow` fails (with NotFound, the `none` outcome) exactly when
no post has the requested identifier; otherwise it returns the stored post
paired with its direct replies — the only failure is the store's NotFound,
forwarded unchanged. -/
theorem C6_renderShow_notFound_iff (s : List Post) (i : String) :
    (renderShow s i = none ↔ ∀ p ∈ s, p.id ≠ i) ∧
    ∀ p, getPost s i = some p →
      renderShow s i = some (p, listRepliesTo s i) := by
  constructor
  · rw [renderShow, Option.map_eq_none', getPost, List.find?_eq_none]
    simp
  · intro p hp
    rw [renderShow, hp]
    rfl

/-- Witness for C6: `renderShow` on the sample store returns `postA`
together with its direct replies. -/
theorem C6_witness :
    renderShow wStore idA = some (postA, listRepliesTo wStore idA) :=
  (C6_renderShow_notFound_iff wStore idA).2 postA (by decide)

/-! ### Counting occurrences of a reply across the rendered index -/

theorem sum_map_ite_id (pid : String) (c : Nat) (l : List Post) :
    (l.map fun p => if p.id = pid then c else 0).sum =
      c * l.countP fun p => p.id = pid := by
  induction l with
  | nil => simp
  | cons q t ih =>
    rw [List.map_cons, List.sum_cons, ih, List.countP_cons]
    by_cases h : q.id = pid
    · simp [h, Nat.mul_add, Nat.add_comm]
    · simp [h]

theorem countP_eq_one_of_key (P : Post → Bool) (s : List Post)
    (h : (s.map Post.id).Nodup) (p : Post) (hp : p ∈ s) (hPp : P p = true)
    (hkey : ∀ q, P q = true → q.id = p.id) :
    s.countP P = 1 := by
  induction s with
  | nil => cases hp
  | cons a t ih =>
    rw [List.map_cons, List.nodup_cons] at h
    rcases h with ⟨ha, ht⟩
    rw [List.countP_cons]
    rcases List.mem_cons.1 hp with rfl | hpt
    · have h0 : t.countP P = 0 := by
        rw [List.countP_eq_zero]
        intro q hq hPq
        exact ha (hkey q hPq ▸ List.mem_map_of_mem Post.id hq)
      simp [h0, hPp]
    · have hPa : P a = false := by
        by_contra hc
        have hPa' : P a = true := by simpa using hc
        exact ha (hkey a hPa' ▸ List.mem_map_of_mem Post.id hpt)
      rw [ih ht hpt]
      simp [hPa]

theorem count_eq_one_of_mem_nodup (s : List Post)
    (h : (s.map Post.id).Nodup) (r : Post) (hr : r ∈ s) : s.count r = 1 := by
  rw [List.count_eq_countP]
  refine countP_eq_one_of_key _ s h r hr (by simp) ?_
  intro q hq
  have : q = r := by simpa using hq
  rw [this]

theorem count_in_listRepliesTo (s : List Post) (r : Post) (pid : String)
    (hr : r.replyToId = some pid) (i : String) :
    (listRepliesTo s i).count r = if i = pid then s.count r else 0 := by
  rw [(listRepliesTo_perm s i).count_eq r]
  by_cases h : i = pid
  · subst h
    rw [if_pos rfl, List.count_filter]
    simp [hr]
  · rw [if_neg h, List.count_eq_zero]
    intro hmem
    rcases List.mem_filter.1 hmem with ⟨-, hpred⟩
    have hri : r.replyToId = some i := by simpa using hpred
    rw [hr] at hri
    exact h (Option.some.inj hri).symm

/-- C3(amended): for every store, no entry of `renderIndex` is a reply;
under the store's distinct-id invariant, a reply whose parent is top-level
occurs exactly once across the rendered reply sequences — and only inside an
entry carrying its parent's id — while a reply whose parent is itself a
reply occurs in no rendered reply sequence at all. -/
theorem C3_reply_placement (s : List Post) :
    (∀ pr ∈ renderIndex s, pr.1.replyToId = none) ∧
    ((s.map Post.id).Nodup →
      ∀ r p, r ∈ s → r.replyToId = some p.id → p ∈ s → p.replyToId = none →
        ((renderIndex s).map fun pr => pr.2.count r).sum = 1 ∧
        ∀ pr ∈ renderIndex s, r ∈ pr.2 → pr.1.id = p.id) ∧
    ((s.map Post.id).Nodup →
      ∀ r q, r ∈ s → q ∈ s → r.replyToId = some q.id →
        q.replyToId.isSome = true →
        ((renderIndex s).map fun pr => pr.2.count r).sum = 0) := by
  refine ⟨?_, ?_, ?_⟩
  · intro pr hpr
    exact ((mem_listTopLevelPosts s pr.1).1 (mem_renderIndex s hpr).1).2
  · intro hids r p hr hrp hp hptop
    constructor
    · have hmap : ((renderIndex s).map fun pr => pr.2.count r) =
          (listTopLevelPosts s).map fun q => if q.id = p.id then 1 else 0 := by
        rw [renderIndex, List.map_map]
        refine List.map_congr_left ?_
        intro q hq
        show (listRepliesTo s q.id).count r = _
        rw [count_in_listRepliesTo s r p.id hrp q.id,
          count_eq_one_of_mem_nodup s hids r hr]
      rw [hmap, sum_map_ite_id, one_mul]
      have hnd : ((listTopLevelPosts s).map Post.id).Nodup := by
        refine ((listTopLevelPosts_perm s).map Post.id).nodup_iff.2 ?_
        exact ((List.filter_sublist s).map Post.id).nodup hids
      exact countP_eq_one_of_key _ _ hnd p
        ((mem_listTopLevelPosts s p).2 ⟨hp, hptop⟩) (by simp)
        (fun q hq => by simpa using hq)
    · intro pr hpr hmem
      rw [(mem_renderIndex s hpr).2, mem_listRepliesTo] at hmem
      have : some pr.1.id = some p.id := hmem.2 ▸ hrp
      exact (Option.some.inj this)
  · intro hids r q hr hq hrq hqrep
    rw [renderIndex, List.map_map]
    refine List.sum_eq_zero ?_
    intro x hx
    rcases List.mem_map.1 hx with ⟨t, ht, hxt⟩
    rcases (mem_listTopLevelPosts s t).1 ht with ⟨hts, httop⟩
    have hne : t.id ≠ q.id := by
      intro htq
      have hteq : t = q := List.inj_on_of_nodup_map hids hts hq htq
      rw [← hteq, httop] at hqrep
      simp at hqrep
    rw [← hxt]
    show (listRepliesTo s t.id).count r = 0
    rw [count_in_listRepliesTo s r q.id hrq t.id, if_neg hne]

/-- Counterexample to C3 as stated: in the sample store `postC` is a reply
(its `replyToId` is present), yet it occurs zero times — not exactly once —
across the reply sequences of `renderIndex`, because its parent is itself a
reply. -/
theorem C3_counterexample :
    postC ∈ wStore ∧ postC.replyToId.isSome = true ∧
    ((renderIndex wStore).map fun pr => pr.2.count postC).sum = 0 := by
  decide

/-- Witness for the amended C3: `postB`'s parent `postA` is top-level, so
`postB` occurs exactly once across the rendered reply sequences, while
`postC`'s parent `postB` is itself a reply, so `postC` occurs in none. -/
theorem C3_witness :
    ((renderIndex wStore).map fun pr => pr.2.count postB).sum = 1 ∧
    ((renderIndex wStore).map fun pr => pr.2.count postC).sum = 0 :=
  ⟨((C3_reply_placement wStore).2.1 (by decide) postB postA (by decide) rfl
      (by decide) rfl).1,
   (C3_reply_placement wStore).2.2 (by decide) postC postB (by decide)
      (by decide) rfl rfl⟩

/-- C8: a post with zero direct replies yields an empty reply sequence and
no reply indicator; in general every rendered reply count is the length of
the direct-reply sequence, i.e. the number of direct replies in the store
(no recursion into grandchildren). -/
theorem C8_zero_replies_and_counts (s : List Post) (pid : String) :
    ((∀ p ∈ s, p.replyToId ≠ some pid) →
      listRepliesTo s pid = [] ∧
      (∀ pr, renderShow s pid = some pr →
        pr.2 = [] ∧ repliesIndicator pr.2 = none) ∧
      ∀ pr ∈ renderIndex s, pr.1.id = pid → repliesIndicator pr.2 = none) ∧
    ∀ pr ∈ renderIndex s,
      pr.2.length = s.countP fun p => p.replyToId = some pr.1.id := by
  constructor
  · intro hzero
    have hfil : (s.filter fun p => p.replyToId = some pid) = [] := by
      rw [List.filter_eq_nil_iff]
      intro a ha
      simpa using hzero a ha
    have hperm := listRepliesTo_perm s pid
    rw [hfil] at hperm
    have hnil := hperm.eq_nil
    refine ⟨hnil, ?_, ?_⟩
    · intro pr hpr
      rw [(renderShow_eq_some s pid hpr).2, hnil]
      exact ⟨rfl, rfl⟩
    · intro pr hpr hid
      rw [(mem_renderIndex s hpr).2, hid, hnil]
      rfl
  · intro pr hpr
    rw [(mem_renderIndex s hpr).2, (listRepliesTo_perm s pr.1.id).length_eq,
      List.countP_eq_length_filter]

/-- Witness for C8: `postD` has no replies in the sample store, so its reply
sequence is empty. -/
theorem C8_witness : listRepliesTo wStore idD = [] :=
  (((C8_zero_replies_and_counts wStore idD).1 (by decide)).1)

/-- The creation request of the C4 scenario: valid name and content, but a
`replyToId` that is not a well-formed UUID. -/
def dtoNonexistent : CreatePostDto := ⟨nmX, ctY, some nonexistentId⟩

/-- Counterexample to C4 as stated: the request with
`replyToId = "nonexistent-id"` is rejected by the `@IsUUID()` validation
with ValidationError — not with NotFound, since the malformed identifier
never reaches the store's existence check. -/
theorem C4_counterexample :
    handleCreatePost [] dtoNonexistent wId 0 =
      Except.error CreateError.validationError ∧
    handleCreatePost [] dtoNonexistent wId 0 ≠
      Except.error CreateError.notFound := by
  refine ⟨rfl, fun h => ?_⟩
  have h' : Except.error (ε := CreateError) (α := List Post)
      CreateError.validationError = Except.error CreateError.notFound :=
    (rfl : handleCreatePost [] dtoNonexistent wId 0 =
      Except.error CreateError.validationError).symm.trans h
  injection h' with h''
  cases h''

/-- C4(amended): a creation request whose `replyToId` is a well-formed UUID
that references no existing post fails with NotFound; the literal
`"nonexistent-id"` instead fails UUID validation with ValidationError. -/
theorem C4_unknown_uuid_is_notFound (s : List Post) (d : CreatePostDto)
    (newId : String) (now : Nat) (r : String)
    (hname : posterNameValid d.posterName = true)
    (hcontent : contentValid d.content = true)
    (hr : d.replyToId = some r) (huuid : isUUID r = true)
    (hnotin : ∀ p ∈ s, p.id ≠ r) :
    handleCreatePost s d newId now = Except.error CreateError.notFound := by
  have hvalid : validCreatePostDto d = true := by
    rw [validCreatePostDto, hname, hcontent, hr]
    simpa [replyToIdValid] using huuid
  rcases (posterNameValid_iff d.posterName).1 hname with ⟨hn0, hn1⟩
  rcases (contentValid_iff d.content).1 hcontent with ⟨hc0, hc1⟩
  have hcond : ¬ (d.posterName.length = 0 ∨ 100 < d.posterName.length ∨
      d.content.length = 0 ∨ 25000 < d.content.length) := by
    push_neg
    exact ⟨fun h => hn0 ((string_length_zero_iff d.posterName).1 h), hn1,
      fun h => hc0 ((string_length_zero_iff d.content).1 h), hc1⟩
  have hany : (s.any fun p => p.id = r) = false := by
    rw [List.any_eq_false]
    intro p hp
    simpa using hnotin p hp
  rw [handleCreatePost, if_pos hvalid, hr, storeCreatePost.eq_def,
    if_neg hcond]
  simp [hany]

/-- A well-formed UUID referencing no post in the empty store. -/
def dtoFreshUuid : CreatePostDto := ⟨nmX, ctY, some freshUuid⟩

/-- Witness for the amended C4: a syntactically valid UUID that matches no
stored post makes creation fail with NotFound. -/
theorem C4_witness :
    handleCreatePost [] dtoFreshUuid wId 0 =
      Except.error CreateError.notFound :=
  C4_unknown_uuid_is_notFound [] dtoFreshUuid wId 0 freshUuid
    (by decide) (by decide) rfl (by decide) (by decide)

/-- C7: creation fails with ValidationError whenever `posterName` is empty
or over 100 characters or `content` is empty or over 25000 characters, and
name/content within those bounds pass the name/content validation. -/
theorem C7_field_constraints (s : List Post) (d : CreatePostDto)
    (newId : String) (now : Nat) :
    (d.posterName = "" ∨ 100 < d.posterName.length ∨ d.content = "" ∨
        25000 < d.content.length →
      handleCreatePost s d newId now =
        Except.error CreateError.validationError) ∧
    (1 ≤ d.posterName.length → d.posterName.length ≤ 100 →
      1 ≤ d.content.length → d.content.length ≤ 25000 →
      posterNameValid d.posterName = true ∧ contentValid d.content = true) := by
  constructor
  · intro hbad
    have hfalse : ¬ validCreatePostDto d = true := by
      rw [validCreatePostDto]
      simp only [Bool.and_eq_true]
      rintro ⟨⟨hn, hc⟩, -⟩
      rw [posterNameValid_iff] at hn
      rw [contentValid_iff] at hc
      rcases hbad with h | h | h | h
      · exact hn.1 h
      · exact absurd hn.2 (not_le.2 h)
      · exact hc.1 h
      · exact absurd hc.2 (not_le.2 h)
    rw [handleCreatePost, if_neg hfalse]
  · intro h1 h2 h3 h4
    have hn0 : d.posterName ≠ "" := fun h =>
      by rw [← string_length_zero_iff] at h; omega
    have hc0 : d.content ≠ "" := fun h =>
      by rw [← string_length_zero_iff] at h; omega
    exact ⟨(posterNameValid_iff _).2 ⟨hn0, h2⟩, (contentValid_iff _).2 ⟨hc0, h4⟩⟩

/-- The creation request of the C7 scenario: empty poster name. -/
def dtoEmptyName : CreatePostDto := ⟨emptyStr, ctY, none⟩

/-- Witness for C7: an empty poster name is rejected with ValidationError,
and short non-empty fields pass the name/content validation. -/
theorem C7_witness :
    handleCreatePost [] dtoEmptyName wId 0 =
      Except.error CreateError.validationError ∧
    posterNameValid nmX = true ∧ contentValid ctY = true :=
  ⟨(C7_field_constraints [] dtoEmptyName wId 0).1 (Or.inl rfl),
   (C7_field_constraints [] ⟨nmX, ctY, none⟩ wId 0).2
     (by decide) (by decide) (by decide) (by decide)⟩

/-- C9: a creation request whose `replyToId` is present but not a
well-formed UUID is rejected with ValidationError for every store state —
it never reaches the store — whatever the other fields contain. -/
theorem C9_malformed_replyTo_rejected (s : List Post) (d : CreatePostDto)
    (newId : String) (now : Nat) (r : String)
    (hr : d.replyToId = some r) (hbad : isUUID r = false) :
    handleCreatePost s d newId now =
      Except.error CreateError.validationError := by
  have hfalse : ¬ validCreatePostDto d = true := by
    rw [validCreatePostDto]
    simp only [Bool.and_eq_true]
    rintro ⟨-, hru⟩
    rw [hr] at hru
    simp [replyToIdValid, hbad] at hru
  rw [handleCreatePost, if_neg hfalse]

/-- Witness for C9: the malformed identifier of the C4 scenario is rejected
with ValidationError even though name and content are valid. -/
theorem C9_witness :
    handleCreatePost wStore dtoNonexistent wId 0 =
      Except.error CreateError.validationError :=
  C9_malformed_replyTo_rejected wStore dtoNonexistent wId 0 nonexistentId
    rfl (by decide)

/-- C10: the IsNotEmpty check rejects exactly the empty string, so a
whitespace-only non-empty `posterName` (and `content`) within the length
bounds passes validation. -/
theorem C10_whitespace_only_accepted (nm ct : String)
    (hnm0 : nm ≠ "") (hnm1 : nm.length ≤ 100)
    (hnmw : ∀ c ∈ nm.data, c.isWhitespace = true)
    (hct0 : ct ≠ "") (hct1 : ct.length ≤ 25000)
    (hctw : ∀ c ∈ ct.data, c.isWhitespace = true) :
    validCreatePostDto ⟨nm, ct, none⟩ = true ∧
    ∀ x : String, isNotEmptyCheck x = false ↔ x = "" := by
  constructor
  · rw [validCreatePostDto]
    simp only [Bool.and_eq_true]
    refine ⟨⟨(posterNameValid_iff nm).2 ⟨hnm0, hnm1⟩,
      (contentValid_iff ct).2 ⟨hct0, hct1⟩⟩, rfl⟩
  · intro x
    simp [isNotEmptyCheck]

/-- Witness for C10: a single space is accepted as poster name and content. -/
theorem C10_witness : validCreatePostDto ⟨spaceStr, spaceStr, none⟩ = true :=
  (C10_whitespace_only_accepted spaceStr spaceStr (by decide) (by decide)
    (by decide) (by decide) (by decide) (by decide)).1

end MvcPosts
